import Mathlib

/-!
# Verification of the journal-backend request handlers

Shallow embedding of the handlers of the journal backend (Express +
Prisma).  Users and journals are modelled as Lean structures; the
relational store is a list; JavaScript `Date` values are epoch
milliseconds (`Int`); `undefined`/`null` arguments are `Option`;
external primitives (bcrypt, JWT signing, `JSON.parse`) are function
parameters.  Each handler from the source is translated into an
executable Lean function returning an explicit outcome type whose
constructors carry the same data as the JSON responses of the source.
-/

namespace JournalBackend

/-! ## JavaScript string primitives (ASCII fragment used by the code) -/

/-- ASCII uppercase of one character, as `String.prototype.toUpperCase`
acts on the ASCII role strings handled by this backend. -/
def jsCharUpper (c : Char) : Char :=
  if c.toNat ≥ 97 ∧ c.toNat ≤ 122 then Char.ofNat (c.toNat - 32) else c

/-- Model of `s.toUpperCase()` for the ASCII strings this backend uses. -/
def jsToUpperCase (s : String) : String :=
  String.mk (s.data.map jsCharUpper)

/-- Helper for `jsStartsWith` on character lists. -/
def jsStartsWithAux : List Char → List Char → Bool
  | [], _ => true
  | _ :: _, [] => false
  | p :: ps, c :: cs => p == c && jsStartsWithAux ps cs

/-- Model of `s.startsWith(p)`. -/
def jsStartsWith (s p : String) : Bool :=
  jsStartsWithAux p.data s.data

/-- Characters of the first split field: everything before the first space. -/
def takeUntilSpace : List Char → List Char
  | [] => []
  | c :: cs => if c == ' ' then [] else c :: takeUntilSpace cs

/-- Drop characters up to and including the first space. -/
def dropThroughSpace : List Char → List Char
  | [] => []
  | c :: cs => if c == ' ' then cs else dropThroughSpace cs

/-- Model of `s.split(" ")[1]` for a string containing at least one
space (the only use site guards with `startsWith "Bearer "`):
the characters strictly between the first space and the following
space (or the end of the string). -/
def jsSplitSpaceSecond (s : String) : String :=
  String.mk (takeUntilSpace (dropThroughSpace s.data))

/-- Model of JavaScript `Array.prototype.join(sep)`. -/
def jsJoin (sep : String) : List String → String
  | [] => ""
  | [x] => x
  | x :: y :: xs => x ++ sep ++ jsJoin sep (y :: xs)

/-- JavaScript string truthiness: every string except `""` is truthy. -/
def jsTruthy (s : String) : Bool := s ≠ ""

/-! ## JavaScript `Date` model

A JS time value is an integer count of milliseconds since the Unix
epoch.  Calendar conversion uses the standard civil-from-days /
days-from-civil algorithms of the proleptic Gregorian calendar, which
is exactly the calendar `Date.prototype.toISOString` uses. -/

/-- Gregorian leap-year test. -/
def isLeapYear (y : Nat) : Bool :=
  (y % 4 == 0 && y % 100 != 0) || y % 400 == 0

/-- Number of days in month `m` (1–12) of year `y`. -/
def daysInMonth (y m : Nat) : Nat :=
  if m == 2 then (if isLeapYear y then 29 else 28)
  else if m == 4 || m == 6 || m == 9 || m == 11 then 30
  else 31

/-- Days from the epoch 1970-01-01 to civil date `y-m-d`
(days-from-civil algorithm, proleptic Gregorian). -/
def daysFromCivil (y : Int) (m d : Nat) : Int :=
  let yAdj : Int := if m ≤ 2 then y - 1 else y
  let era : Int := yAdj.fdiv 400
  let yoe : Nat := (yAdj - era * 400).toNat
  let mp : Nat := if m > 2 then m - 3 else m + 9
  let doy : Nat := (153 * mp + 2) / 5 + d - 1
  let doe : Nat := yoe * 365 + yoe / 4 - yoe / 100 + doy
  era * 146097 + (doe : Int) - 719468

/-- Civil date `(year, month, day)` of a day count from the epoch
(civil-from-days algorithm, proleptic Gregorian). -/
def civilFromDays (z : Int) : Int × Nat × Nat :=
  let z' : Int := z + 719468
  let era : Int := z'.fdiv 146097
  let doe : Nat := (z' - era * 146097).toNat
  let yoe : Nat := (doe - doe / 1460 + doe / 36524 - doe / 146096) / 365
  let y : Int := (yoe : Int) + era * 400
  let doy : Nat := doe - (365 * yoe + yoe / 4 - yoe / 100)
  let mp : Nat := (5 * doy + 2) / 153
  let d : Nat := doy - (153 * mp + 2) / 5 + 1
  let m : Nat := if mp < 10 then mp + 3 else mp - 9
  (if m ≤ 2 then y + 1 else y, m, d)

/-- Left-pad the decimal digits of `n` with zeros to width `w`. -/
def padNum (w n : Nat) : String :=
  let s := Nat.repr n
  String.mk (List.replicate (w - s.length) '0') ++ s

/-- Model of `Date.prototype.toISOString` for time values whose year
lies in 0–9999 (the backend only handles such dates; JavaScript would
switch to the expanded ±YYYYYY form outside that range). -/
def toISOString (t : Int) : String :=
  let days : Int := t.fdiv 86400000
  let ms : Nat := (t - days * 86400000).toNat
  let c := civilFromDays days
  let y : Nat := c.1.toNat
  let mo : Nat := c.2.1
  let d : Nat := c.2.2
  let hh : Nat := ms / 3600000
  let mi : Nat := ms % 3600000 / 60000
  let ss : Nat := ms % 60000 / 1000
  let mss : Nat := ms % 1000
  padNum 4 y ++ "-" ++ padNum 2 mo ++ "-" ++ padNum 2 d ++ "T" ++
    padNum 2 hh ++ ":" ++ padNum 2 mi ++ ":" ++ padNum 2 ss ++ "." ++
    padNum 3 mss ++ "Z"

/-- Decimal value of an ASCII digit character. -/
def digitVal (c : Char) : Nat := c.toNat - 48

/-- Model of `new Date(s)` restricted to the canonical 24-character
ECMA-262 format `YYYY-MM-DDTHH:MM:SS.sssZ`; `none` models an invalid
date (`NaN` time value).  JavaScript also parses other layouts, but
any such string differs from its own `toISOString` re-serialization
(whose output is exactly this canonical shape), so the validator
below gives the same verdict on every string. -/
def jsParseDate (s : String) : Option Int :=
  match s.data with
  | [y1, y2, y3, y4, '-', m1, m2, '-', d1, d2, 'T',
     h1, h2, ':', n1, n2, ':', t1, t2, '.', p1, p2, p3, 'Z'] =>
    if [y1, y2, y3, y4, m1, m2, d1, d2, h1, h2,
        n1, n2, t1, t2, p1, p2, p3].all Char.isDigit then
      let y : Nat := digitVal y1 * 1000 + digitVal y2 * 100 +
                     digitVal y3 * 10 + digitVal y4
      let mo : Nat := digitVal m1 * 10 + digitVal m2
      let d : Nat := digitVal d1 * 10 + digitVal d2
      let hh : Nat := digitVal h1 * 10 + digitVal h2
      let mi : Nat := digitVal n1 * 10 + digitVal n2
      let ss : Nat := digitVal t1 * 10 + digitVal t2
      let ms : Nat := digitVal p1 * 100 + digitVal p2 * 10 + digitVal p3
      if 1 ≤ mo ∧ mo ≤ 12 ∧ 1 ≤ d ∧ d ≤ daysInMonth y mo ∧
         hh ≤ 23 ∧ mi ≤ 59 ∧ ss ≤ 59 then
        some (daysFromCivil (y : Int) mo d * 86400000 +
              (hh * 3600000 + mi * 60000 + ss * 1000 + ms : Nat))
      else none
    else none
  | _ => none

/-- `isValidISODate` from the journal controller: parse the string as a
date and require exact equality with the re-serialization
(`dateString === date.toISOString()`); a failed parse (`NaN`) is
invalid. -/
def isValidISODate (dateString : String) : Bool :=
  match jsParseDate dateString with
  | none => false
  | some t => dateString == toISOString t

/-! ## Data model (prisma/schema.prisma) -/

/-- A row of the `users` table.  `role` is stored as a string; the
database enum restricts it to `STUDENT`, `TEACHER`, `ADMIN`. -/
structure User where
  id : String
  name : String
  email : String
  password : String
  role : String
deriving DecidableEq

/-- The database `Role` enum admits exactly these values. -/
def roleEnum : List String := ["STUDENT", "TEACHER", "ADMIN"]

/-- A row of the `journals` table together with its tagged-student
association rows (`taggedStudents` holds user ids).  `publish_at` is
`none` for SQL `NULL`, otherwise epoch milliseconds. -/
structure Journal where
  id : String
  title : String
  content : String
  media : List String
  mediaType : Option String
  teacherId : String
  taggedStudents : List String
  publish_at : Option Int
  created_at : Int
deriving DecidableEq

/-- The claims object signed by `loginUser`:
`{ userId, name, email, role }` — these four fields and nothing else. -/
structure TokenPayload where
  userId : String
  name : String
  email : String
  role : String
deriving DecidableEq

/-- A signed JWT, modelled as its payload plus the expiry claim the
signing options would add.  `loginUser` passes no options, so it
produces `exp := none`. -/
structure SignedToken where
  payload : TokenPayload
  exp : Option Int
deriving DecidableEq

/-- `jwt.sign(payload, JWT_SECRET, options?)`: signing is modelled as
packaging; `expiresIn` is the optional expiry the options could set. -/
def jwtSign (p : TokenPayload) (expiresIn : Option Int) : SignedToken :=
  ⟨p, expiresIn⟩

/-- Look up a user by primary key (`prisma.user.findUnique` on `id`). -/
def findUserById (users : List User) (id : String) : Option User :=
  users.find? (fun u => u.id == id)

/-- Look up a user by unique email (`prisma.user.findUnique` on `email`). -/
def findUserByEmail (users : List User) (email : String) : Option User :=
  users.find? (fun u => u.email == email)

/-- Look up a journal by primary key. -/
def findJournal (db : List Journal) (id : String) : Option Journal :=
  db.find? (fun j => j.id == id)

/-! ## Access-control middleware (auth.middleware.js) -/

/-- Outcome of the `authenticate` middleware: the two 401 JSON bodies
of the source, or `next()` with the decoded claims attached to
`req.user`. -/
inductive AuthResult where
  /-- 401 `Unauthorized - No token provided`. -/
  | unauthorizedNoToken : AuthResult
  /-- 401 `Invalid Token`. -/
  | unauthorizedInvalid : AuthResult
  /-- `next()` was called with `req.user` set to the payload. -/
  | proceed : TokenPayload → AuthResult
deriving DecidableEq

/-- The `authenticate` middleware.  `verify` models
`jwt.verify ∘ decode` against the shared secret: `none` is a
verification failure (the `catch` branch).  The header is `none` when
the request carries no `Authorization` header; the empty string is
falsy in JS and is likewise rejected (it also fails `startsWith`). -/
def authenticate (verify : String → Option TokenPayload)
    (authHeader : Option String) : AuthResult :=
  match authHeader with
  | none => .unauthorizedNoToken
  | some h =>
    if ¬ (jsTruthy h && jsStartsWith h "Bearer ") then .unauthorizedNoToken
    else
      match verify (jsSplitSpaceSecond h) with
      | none => .unauthorizedInvalid
      | some decoded =>
        .proceed { decoded with role := jsToUpperCase decoded.role }

/-- Outcome of the `restrictTo(...allowedRoles)` guard. -/
inductive GuardResult where
  /-- 401 `User not authenticated`. -/
  | unauthorizedNoUser : GuardResult
  /-- 403 body: `message` names the required roles, `userRole` echoes
  the caller's uppercased role. -/
  | forbidden : String → String → GuardResult
  /-- `next()` was called. -/
  | proceed : GuardResult
deriving DecidableEq

/-- The 403 message of `restrictTo`: the required roles joined as in
`allowedRoles.join(" or ")` appended to the fixed prefix. -/
def restrictToMessage (allowedRoles : List String) : String :=
  "You do not have permission to perform this action. Required role: " ++
    jsJoin " or " allowedRoles

/-- The `restrictTo` guard: 401 when no identity was attached,
403 when the uppercased role is not among the uppercased allowed
roles, otherwise `next()`. -/
def restrictTo (allowedRoles : List String) (user : Option TokenPayload) :
    GuardResult :=
  match user with
  | none => .unauthorizedNoUser
  | some u =>
    let userRole := jsToUpperCase u.role
    let allowedRolesUpper := allowedRoles.map jsToUpperCase
    if ¬ allowedRolesUpper.contains userRole then
      .forbidden (restrictToMessage allowedRoles) userRole
    else .proceed

/-! ## User service (controllers/user.js) -/

/-- The sanitized user projection returned by register and login:
id, name, email, role — by construction it has no password field. -/
structure UserResponse where
  id : String
  name : String
  email : String
  role : String
deriving DecidableEq

/-- Request body of `POST /user/register`; `role` is optional. -/
structure RegisterInput where
  name : String
  email : String
  password : String
  role : Option String
deriving DecidableEq

/-- Outcome of `registerUser`. -/
inductive RegisterResult where
  /-- 400 `User already exists`. -/
  | conflict : RegisterResult
  /-- 201 with the sanitized user, plus the store as extended by
  `prisma.user.create`. -/
  | created : UserResponse → List User → RegisterResult
deriving DecidableEq

/-- The role actually persisted:
`role?.toUpperCase() || "STUDENT"` — the uppercased input, except that
a missing role (`undefined`) or an empty string (falsy) defaults to
`STUDENT`. -/
def storedRole (role : Option String) : String :=
  match role with
  | none => "STUDENT"
  | some r => if jsTruthy (jsToUpperCase r) then jsToUpperCase r else "STUDENT"

/-- `registerUser`: reject an existing email, otherwise persist a new
user with the hashed password and the normalized role and answer with
the sanitized projection.  `hash` models `bcrypt.hash` with its random
salt already fixed; `newId` models the uuid the store generates. -/
def registerUser (users : List User) (hash : String → String)
    (newId : String) (inp : RegisterInput) : RegisterResult :=
  match findUserByEmail users inp.email with
  | some _ => .conflict
  | none =>
    let u : User :=
      { id := newId, name := inp.name, email := inp.email,
        password := hash inp.password, role := storedRole inp.role }
    .created { id := u.id, name := u.name, email := u.email, role := u.role }
      (users ++ [u])

/-- Outcome of `loginUser`. -/
inductive LoginResult where
  /-- 400 `User not found`. -/
  | userNotFound : LoginResult
  /-- 400 `Invalid password`. -/
  | invalidPassword : LoginResult
  /-- 200 with the sanitized user and the signed token. -/
  | ok : UserResponse → SignedToken → LoginResult
deriving DecidableEq

/-- `loginUser`: look the user up by email, verify the password
against the stored hash (`checkPw` models `bcrypt.compare`), and on
success sign a token over `{userId, name, email, role}` with no
options — hence no expiry claim. -/
def loginUser (users : List User) (checkPw : String → String → Bool)
    (email password : String) : LoginResult :=
  match findUserByEmail users email with
  | none => .userNotFound
  | some user =>
    if ¬ checkPw password user.password then .invalidPassword
    else
      let token := jwtSign
        { userId := user.id, name := user.name,
          email := user.email, role := user.role } none
      .ok { id := user.id, name := user.name,
            email := user.email, role := user.role } token

/-! ## Journal service (controllers/journal.js) -/

/-- The `taggedStudents` field of a create request: absent
(`undefined`), a JSON-encoded string, or already an array of ids. -/
inductive TagsArg where
  | absent : TagsArg
  | jsonStr : String → TagsArg
  | ids : List String → TagsArg
deriving DecidableEq

/-- Outcome of `createJournal`. -/
inductive CreateResult where
  /-- 500: the handler threw before or inside the store call and the
  `catch` answered `Journal creation failed` — in particular the
  `TypeError` from `parsedTaggedStudents.map` when the field is
  `undefined`, or a `JSON.parse` failure. -/
  | serverError : CreateResult
  /-- 201 with the created journal. -/
  | created : Journal → CreateResult
deriving DecidableEq

/-- `createJournal`: decode `taggedStudents` when it arrives as a JSON
string (`jsonParse` models `JSON.parse` returning an array of ids;
`none` models a parse throw or a non-array value, which makes the
subsequent `.map` throw).  When the field is absent the handler still
calls `parsedTaggedStudents.map`, which throws on `undefined` and
lands in the `catch`.  `publish_at` is not set by the handler; the
store trigger defaults it to the insertion time `now`. -/
def createJournal (jsonParse : String → Option (List String))
    (newId teacherId : String) (title content : String)
    (media : Option (List String)) (mediaType : Option String)
    (taggedStudents : TagsArg) (now : Int) : CreateResult :=
  let mk : List String → CreateResult := fun parsed =>
    .created
      { id := newId, title := title, content := content,
        media := media.getD [], mediaType := mediaType.map jsToUpperCase,
        teacherId := teacherId, taggedStudents := parsed,
        publish_at := some now, created_at := now }
  match taggedStudents with
  | .absent => .serverError
  | .jsonStr s =>
    match jsonParse s with
    | none => .serverError
    | some parsed => mk parsed
  | .ids parsed => mk parsed

/-- Outcome of `updateJournal`. -/
inductive UpdateResult where
  /-- 500: `taggedStudents.map` threw on `undefined` before the store
  call (`Failed to update journal`). -/
  | serverErrorUndefinedTags : UpdateResult
  /-- 500: `prisma.journal.update` threw its record-not-found error,
  caught by the generic `catch` (`Failed to update journal`). -/
  | serverErrorRecordNotFound : UpdateResult
  /-- 200 with the updated journal. -/
  | ok : Journal → UpdateResult
deriving DecidableEq

/-- HTTP status of an update outcome. -/
def UpdateResult.status : UpdateResult → Nat
  | .serverErrorUndefinedTags => 500
  | .serverErrorRecordNotFound => 500
  | .ok _ => 200

/-- `updateJournal`: the data object is evaluated first, so
`taggedStudents.map` throws when the field is `undefined`; then
`prisma.journal.update` throws when no journal has the id; otherwise
the row is overwritten and the tagged-student set is replaced
(`set:`), not merged.  The data field `mediaType` is
`mediaType?.toUpperCase()`, which is `undefined` when the argument is
absent — Prisma skips an `undefined` update field, so the stored
`mediaType` is retained in that case (`media` is `media || []` and is
never `undefined`). -/
def updateJournal (db : List Journal) (id : String)
    (title content : String) (media : Option (List String))
    (mediaType : Option String) (taggedStudents : Option (List String)) :
    UpdateResult :=
  match taggedStudents with
  | none => .serverErrorUndefinedTags
  | some tags =>
    match findJournal db id with
    | none => .serverErrorRecordNotFound
    | some j =>
      .ok { j with
            title := title,
            content := content,
            media := media.getD [],
            mediaType := match mediaType with
                         | none => j.mediaType
                         | some mt => some (jsToUpperCase mt),
            taggedStudents := tags }

/-- Outcome of `deleteJournal`. -/
inductive DeleteResult where
  /-- 500: `prisma.journal.delete` threw its record-not-found error,
  caught by the generic `catch` (`Failed to delete journal`). -/
  | serverErrorRecordNotFound : DeleteResult
  /-- 200 `Journal deleted successfully`, with the remaining store. -/
  | ok : List Journal → DeleteResult
deriving DecidableEq

/-- HTTP status of a delete outcome. -/
def DeleteResult.status : DeleteResult → Nat
  | .serverErrorRecordNotFound => 500
  | .ok _ => 200

/-- `deleteJournal`: `prisma.journal.delete` throws when no journal
has the id (caught as a 500); otherwise the row is removed. -/
def deleteJournal (db : List Journal) (id : String) : DeleteResult :=
  match findJournal db id with
  | none => .serverErrorRecordNotFound
  | some _ => .ok (db.filter (fun j => ¬ j.id == id))

/-- Outcome of `getJournalById`. -/
inductive GetResult where
  /-- 404 `Journal not found`. -/
  | notFound : GetResult
  /-- 200 with the journal. -/
  | ok : Journal → GetResult
deriving DecidableEq

/-- HTTP status of a get outcome. -/
def GetResult.status : GetResult → Nat
  | .notFound => 404
  | .ok _ => 200

/-- `getJournalById`: `findUnique`, answering 404 on `null`. -/
def getJournalById (db : List Journal) (id : String) : GetResult :=
  match findJournal db id with
  | none => .notFound
  | some j => .ok j

/-- Outcome of `publishJournal`. -/
inductive PublishResult where
  /-- 400 `Invalid publish_at date format. Must be ISO 8601`. -/
  | badRequest : PublishResult
  /-- 500: `prisma.journal.update` threw its record-not-found error,
  caught by the generic `catch`. -/
  | serverErrorRecordNotFound : PublishResult
  /-- 200 `Journal published successfully` with the updated journal. -/
  | ok : Journal → PublishResult
deriving DecidableEq

/-- `publishJournal`: validation runs only when `publish_at` is truthy
(`publish_at && !isValidISODate(publish_at)`); the stored value is
`new Date(publish_at)` when `publish_at` is truthy and `new Date()`
(the current instant `now`) otherwise.  On the truthy path the guard
has already established validity, so the parse succeeds. -/
def publishJournal (db : List Journal) (id : String)
    (publish_at : Option String) (now : Int) : PublishResult :=
  let pa := publish_at.getD ""
  if jsTruthy pa && ¬ isValidISODate pa then .badRequest
  else
    match findJournal db id with
    | none => .serverErrorRecordNotFound
    | some j =>
      .ok { j with
            publish_at :=
              some (if jsTruthy pa then (jsParseDate pa).getD 0 else now) }

/-- The student-feed predicate of `getStudentFeed` and of the student
branch of `GET /user/feed`: the caller is among the tagged students
AND (`publish_at` is null OR `publish_at <= now`). -/
def studentFeedPred (userId : String) (now : Int) (j : Journal) : Bool :=
  j.taggedStudents.contains userId &&
    (match j.publish_at with
     | none => true
     | some t => decide (t ≤ now))

/-- `getStudentFeed` (controllers/journal.js): `findMany` over the
conjunction above, no ordering clause. -/
def getStudentFeed (db : List Journal) (userId : String) (now : Int) :
    List Journal :=
  db.filter (studentFeedPred userId now)

/-- `getTeacherFeed` (controllers/journal.js): all journals owned by
the caller. -/
def getTeacherFeed (db : List Journal) (userId : String) : List Journal :=
  db.filter (fun j => j.teacherId == userId)

/-! ## Role-feed dispatch (routes/user.js, GET /user/feed) -/

/-- Insert a journal into a list sorted by `created_at` descending,
keeping it sorted. -/
def insertByCreatedDesc (j : Journal) : List Journal → List Journal
  | [] => [j]
  | k :: ks =>
    if k.created_at ≤ j.created_at then j :: k :: ks
    else k :: insertByCreatedDesc j ks

/-- The store's `orderBy: created_at desc` clause, modelled as an
insertion sort (any stable realization of the ordering; the claims
only use that it permutes the filtered rows). -/
def orderByCreatedDesc : List Journal → List Journal
  | [] => []
  | j :: js => insertByCreatedDesc j (orderByCreatedDesc js)

/-- The teacher branch query of `GET /user/feed`: journals owned by
the caller, newest first. -/
def teacherFeedQuery (db : List Journal) (userId : String) : List Journal :=
  orderByCreatedDesc (db.filter (fun j => j.teacherId == userId))

/-- The student branch query of `GET /user/feed`: same predicate as
`getStudentFeed`, newest first. -/
def studentFeedQuery (db : List Journal) (userId : String) (now : Int) :
    List Journal :=
  orderByCreatedDesc (db.filter (studentFeedPred userId now))

/-- Outcome of the `GET /user/feed` handler. -/
inductive FeedResult where
  /-- 404 `User not found`. -/
  | userNotFound : FeedResult
  /-- 200 `Teacher feed fetched successfully`. -/
  | okTeacher : List Journal → FeedResult
  /-- 200 `Student feed fetched successfully`. -/
  | okStudent : List Journal → FeedResult
  /-- 400 `Invalid user role. ...`; the `userRole` field echoes the
  stored role. -/
  | badRole : String → FeedResult
deriving DecidableEq

/-- The `GET /user/feed` handler: re-fetch the user's role from the
store by the token's `userId` (the token's `role` claim is
destructured but never used), 404 when the row is gone, then dispatch
on the stored role; any role other than `TEACHER`/`STUDENT` answers
400 echoing that role. -/
def feedRoute (users : List User) (db : List Journal) (now : Int)
    (tok : TokenPayload) : FeedResult :=
  match findUserById users tok.userId with
  | none => .userNotFound
  | some user =>
    if user.role == "TEACHER" then
      .okTeacher (teacherFeedQuery db tok.userId)
    else if user.role == "STUDENT" then
      .okStudent (studentFeedQuery db tok.userId now)
    else
      .badRole user.role

/-! ## Helper lemmas -/

theorem mem_insertByCreatedDesc {a j : Journal} {l : List Journal} :
    a ∈ insertByCreatedDesc j l ↔ a = j ∨ a ∈ l := by
  induction l with
  | nil => simp [insertByCreatedDesc]
  | cons k ks ih =>
    simp only [insertByCreatedDesc]
    split
    · simp [List.mem_cons]
    · simp only [List.mem_cons, ih]
      tauto

theorem mem_orderByCreatedDesc {a : Journal} {l : List Journal} :
    a ∈ orderByCreatedDesc l ↔ a ∈ l := by
  induction l with
  | nil => simp [orderByCreatedDesc]
  | cons j js ih =>
    simp [orderByCreatedDesc, mem_insertByCreatedDesc, ih]

theorem studentFeedPred_iff {sid : String} {now : Int} {j : Journal} :
    studentFeedPred sid now j = true ↔
      sid ∈ j.taggedStudents ∧
        (j.publish_at = none ∨ ∃ t, j.publish_at = some t ∧ t ≤ now) := by
  unfold studentFeedPred
  cases h : j.publish_at with
  | none => simp [h]
  | some t => simp [h]

/-! ## Claim theorems -/

/-- C1: for every student caller, the student feed returns exactly the
journals of the store whose tagged students include the caller and
whose `publish_at` is null or at most the query-time clock; a journal
with `publish_at` in the future never appears, and a tagged journal
with `publish_at` null or in the past always appears.  The ordered
variant used by the student branch of `GET /user/feed` returns the
same set of journals. -/
theorem studentFeed_exact (db : List Journal) (sid : String) (now : Int) :
    (∀ j : Journal,
      j ∈ getStudentFeed db sid now ↔
        j ∈ db ∧ sid ∈ j.taggedStudents ∧
          (j.publish_at = none ∨ ∃ t, j.publish_at = some t ∧ t ≤ now)) ∧
    (∀ j : Journal,
      j ∈ studentFeedQuery db sid now ↔ j ∈ getStudentFeed db sid now) ∧
    (∀ (j : Journal) (t : Int), j ∈ db → j.publish_at = some t → now < t →
      j ∉ getStudentFeed db sid now) ∧
    (∀ j : Journal, j ∈ db → sid ∈ j.taggedStudents →
      (j.publish_at = none ∨ ∃ t, j.publish_at = some t ∧ t ≤ now) →
      j ∈ getStudentFeed db sid now) := by
  have hmem : ∀ j : Journal,
      j ∈ getStudentFeed db sid now ↔
        j ∈ db ∧ sid ∈ j.taggedStudents ∧
          (j.publish_at = none ∨ ∃ t, j.publish_at = some t ∧ t ≤ now) := by
    intro j
    unfold getStudentFeed
    rw [List.mem_filter, studentFeedPred_iff]
  refine ⟨hmem, ?_, ?_, ?_⟩
  · intro j
    unfold studentFeedQuery getStudentFeed
    exact mem_orderByCreatedDesc
  · intro j t _ hpub hfut hin
    rcases ((hmem j).mp hin).2.2 with hnone | ⟨t', ht', hle⟩
    · rw [hpub] at hnone; cases hnone
    · rw [hpub] at ht'
      cases ht'
      exact absurd hle (not_le.mpr hfut)
  · intro j hdb htag hvis
    exact (hmem j).mpr ⟨hdb, htag, hvis⟩

/-- Witness for C1 on a concrete store: a journal published in the
future is excluded from its tagged student's feed, a null-publish
journal is included. -/
theorem studentFeed_exact_witness :
    (⟨"j1", "t", "c", [], none, "T1", ["s1"], some 200, 0⟩ : Journal) ∉
      getStudentFeed
        [⟨"j1", "t", "c", [], none, "T1", ["s1"], some 200, 0⟩,
         ⟨"j2", "t", "c", [], none, "T1", ["s1"], none, 0⟩] "s1" 100 ∧
    (⟨"j2", "t", "c", [], none, "T1", ["s1"], none, 0⟩ : Journal) ∈
      getStudentFeed
        [⟨"j1", "t", "c", [], none, "T1", ["s1"], some 200, 0⟩,
         ⟨"j2", "t", "c", [], none, "T1", ["s1"], none, 0⟩] "s1" 100 := by
  refine ⟨?_, ?_⟩
  · exact (studentFeed_exact
      [⟨"j1", "t", "c", [], none, "T1", ["s1"], some 200, 0⟩,
       ⟨"j2", "t", "c", [], none, "T1", ["s1"], none, 0⟩] "s1" 100).2.2.1
      ⟨"j1", "t", "c", [], none, "T1", ["s1"], some 200, 0⟩ 200
      (by decide) rfl (by decide)
  · exact (studentFeed_exact
      [⟨"j1", "t", "c", [], none, "T1", ["s1"], some 200, 0⟩,
       ⟨"j2", "t", "c", [], none, "T1", ["s1"], none, 0⟩] "s1" 100).2.2.2
      ⟨"j2", "t", "c", [], none, "T1", ["s1"], none, 0⟩
      (by decide) (by decide) (Or.inl rfl)

theorem jsTruthy_of_bearer {h : String}
    (hs : jsStartsWith h "Bearer " = true) : jsTruthy h = true := by
  by_cases hc : h = ""
  · subst hc
    exact absurd hs (by decide)
  · simp [jsTruthy, hc]

/-- C3: a request whose `Authorization` header is absent or does not
start with `Bearer ` is answered 401 by `authenticate` and never
reaches a downstream handler (`next` is not called); the same holds
when the presented token fails signature verification. -/
theorem authenticate_rejects (verify : String → Option TokenPayload)
    (header : Option String) :
    ((header = none ∨
        ∃ h, header = some h ∧ jsStartsWith h "Bearer " = false) →
      authenticate verify header = .unauthorizedNoToken ∧
        ∀ u, authenticate verify header ≠ .proceed u) ∧
    (∀ h, header = some h → jsStartsWith h "Bearer " = true →
      verify (jsSplitSpaceSecond h) = none →
      authenticate verify header = .unauthorizedInvalid ∧
        ∀ u, authenticate verify header ≠ .proceed u) := by
  constructor
  · rintro (hnone | ⟨h, hh, hs⟩)
    · subst hnone
      exact ⟨rfl, fun u hu => by cases hu⟩
    · subst hh
      have : authenticate verify (some h) = .unauthorizedNoToken := by
        simp [authenticate, hs]
      exact ⟨this, fun u hu => by rw [this] at hu; cases hu⟩
  · intro h hh hs hv
    subst hh
    have : authenticate verify (some h) = .unauthorizedInvalid := by
      simp [authenticate, hs, jsTruthy_of_bearer hs, hv]
    exact ⟨this, fun u hu => by rw [this] at hu; cases hu⟩

/-- Witness for C3: a missing header, a malformed header and an
unverifiable token are each answered 401. -/
theorem authenticate_rejects_witness :
    authenticate (fun _ => none) none = .unauthorizedNoToken ∧
    authenticate (fun _ => none) (some "Token abc") = .unauthorizedNoToken ∧
    authenticate (fun _ => none) (some "Bearer abc") = .unauthorizedInvalid := by
  refine ⟨?_, ?_, ?_⟩
  · exact ((authenticate_rejects (fun _ => none) none).1 (Or.inl rfl)).1
  · exact ((authenticate_rejects (fun _ => none) (some "Token abc")).1
      (Or.inr ⟨"Token abc", rfl, by decide⟩)).1
  · exact ((authenticate_rejects (fun _ => none) (some "Bearer abc")).2
      "Bearer abc" rfl (by decide) rfl).1

/-- C4: `restrictTo` answers 401 when no identity is attached, and 403
with a message naming the required role(s) when the authenticated role
(case-insensitively) is outside the permitted set; a STUDENT-role
token on a `restrictTo("teacher")` route is always answered 403. -/
theorem restrictTo_guard (allowedRoles : List String)
    (user : Option TokenPayload) :
    (user = none → restrictTo allowedRoles user = .unauthorizedNoUser) ∧
    (∀ u, user = some u →
      (allowedRoles.map jsToUpperCase).contains (jsToUpperCase u.role) =
        false →
      restrictTo allowedRoles user =
        .forbidden (restrictToMessage allowedRoles) (jsToUpperCase u.role)) ∧
    (∀ u : TokenPayload, u.role = "STUDENT" →
      restrictTo ["teacher"] (some u) =
        .forbidden
          ("You do not have permission to perform this action. " ++
            "Required role: teacher") "STUDENT") := by
  refine ⟨?_, ?_, ?_⟩
  · rintro rfl
    rfl
  · rintro u rfl hc
    simp only [restrictTo]
    rw [hc]
    simp
  · intro u hrole
    simp only [restrictTo, hrole]
    decide

/-- Witness for C4: the guard at concrete inputs — no identity gives
401, a student token on the teacher-restricted route gives 403. -/
theorem restrictTo_guard_witness :
    restrictTo ["teacher"] none = .unauthorizedNoUser ∧
    restrictTo ["teacher"] (some ⟨"u1", "n", "e", "STUDENT"⟩) =
      .forbidden
        ("You do not have permission to perform this action. " ++
          "Required role: teacher") "STUDENT" := by
  constructor
  · exact (restrictTo_guard ["teacher"] none).1 rfl
  · exact (restrictTo_guard ["teacher"] (some ⟨"u1", "n", "e", "STUDENT"⟩)).2.2
      ⟨"u1", "n", "e", "STUDENT"⟩ rfl

/-- C8: `GET /user/feed` re-fetches the caller's role from the store
(the token's claims beyond `userId` do not influence the outcome):
a missing user row answers 404, stored role `TEACHER` answers the
teacher feed, stored role `STUDENT` answers the student feed, and any
other stored role answers 400 echoing that role value. -/
theorem feedRoute_dispatch (users : List User) (db : List Journal)
    (now : Int) (tok : TokenPayload) :
    (findUserById users tok.userId = none →
      feedRoute users db now tok = .userNotFound) ∧
    (∀ u, findUserById users tok.userId = some u →
      (u.role = "TEACHER" →
        feedRoute users db now tok =
          .okTeacher (teacherFeedQuery db tok.userId)) ∧
      (u.role = "STUDENT" →
        feedRoute users db now tok =
          .okStudent (studentFeedQuery db tok.userId now)) ∧
      (u.role ≠ "TEACHER" → u.role ≠ "STUDENT" →
        feedRoute users db now tok = .badRole u.role)) ∧
    (∀ name' email' role',
      feedRoute users db now
        { tok with name := name', email := email', role := role' } =
      feedRoute users db now tok) := by
  refine ⟨?_, ?_, ?_⟩
  · intro hnone
    simp [feedRoute, hnone]
  · intro u hu
    refine ⟨?_, ?_, ?_⟩
    · intro hrole
      simp [feedRoute, hu, hrole]
    · intro hrole
      simp [feedRoute, hu, hrole]
    · intro ht hs
      simp [feedRoute, hu, ht, hs]
  · intro name' email' role'
    rfl

/-- Witness for C8: dispatch on a concrete store holding a teacher, a
student and an admin: each branch of the handler is exercised. -/
theorem feedRoute_dispatch_witness :
    feedRoute [⟨"t1", "n", "e1", "h", "TEACHER"⟩] [] 0
        ⟨"t1", "n", "e1", "TEACHER"⟩ = .okTeacher [] ∧
    feedRoute [⟨"s1", "n", "e2", "h", "STUDENT"⟩] [] 0
        ⟨"s1", "n", "e2", "x"⟩ = .okStudent [] ∧
    feedRoute [⟨"a1", "n", "e3", "h", "ADMIN"⟩] [] 0
        ⟨"a1", "n", "e3", "ADMIN"⟩ = .badRole "ADMIN" ∧
    feedRoute [] [] 0 ⟨"u9", "n", "e9", "STUDENT"⟩ = .userNotFound := by
  refine ⟨?_, ?_, ?_, ?_⟩
  · exact ((feedRoute_dispatch [⟨"t1", "n", "e1", "h", "TEACHER"⟩] [] 0
      ⟨"t1", "n", "e1", "TEACHER"⟩).2.1 ⟨"t1", "n", "e1", "h", "TEACHER"⟩
      (by decide)).1 rfl
  · exact ((feedRoute_dispatch [⟨"s1", "n", "e2", "h", "STUDENT"⟩] [] 0
      ⟨"s1", "n", "e2", "x"⟩).2.1 ⟨"s1", "n", "e2", "h", "STUDENT"⟩
      (by decide)).2.1 rfl
  · exact ((feedRoute_dispatch [⟨"a1", "n", "e3", "h", "ADMIN"⟩] [] 0
      ⟨"a1", "n", "e3", "ADMIN"⟩).2.1 ⟨"a1", "n", "e3", "h", "ADMIN"⟩
      (by decide)).2.2 (by decide) (by decide)
  · exact (feedRoute_dispatch [] [] 0 ⟨"u9", "n", "e9", "STUDENT"⟩).1 rfl

/-- C5 counterexample: registering with the empty string as role
persists role `STUDENT`, not the uppercased input role (which is the
empty string): `role?.toUpperCase() || "STUDENT"` treats the falsy
empty string like an absent role. -/
theorem registerUser_empty_role_cex :
    registerUser [] (fun p => p) "id1" ⟨"n", "a@b", "pw", some ""⟩ =
      .created ⟨"id1", "n", "a@b", "STUDENT"⟩
        [⟨"id1", "n", "a@b", "pw", "STUDENT"⟩] ∧
    jsToUpperCase "" ≠ "STUDENT" := ⟨by decide, by decide⟩

/-- C5 (amended): registering an email that already exists answers the
conflict path — in particular the second of two registrations of the
same email; otherwise a new user is persisted whose role is the
uppercased input role, defaulting to `STUDENT` when the role is
absent or uppercases to the empty string, and the response carries
exactly id, name, email and role (no password field exists in the
response projection). -/
theorem registerUser_spec (users : List User) (hash : String → String)
    (newId : String) (inp : RegisterInput) :
    (∀ u, findUserByEmail users inp.email = some u →
      registerUser users hash newId inp = .conflict) ∧
    (findUserByEmail users inp.email = none →
      registerUser users hash newId inp =
        .created ⟨newId, inp.name, inp.email, storedRole inp.role⟩
          (users ++ [⟨newId, inp.name, inp.email, hash inp.password,
            storedRole inp.role⟩]) ∧
      (inp.role = none → storedRole inp.role = "STUDENT") ∧
      (∀ r, inp.role = some r → jsTruthy (jsToUpperCase r) = true →
        storedRole inp.role = jsToUpperCase r) ∧
      (∀ (hash2 : String → String) (newId2 : String) (inp2 : RegisterInput),
        inp2.email = inp.email →
        registerUser (users ++ [⟨newId, inp.name, inp.email,
            hash inp.password, storedRole inp.role⟩]) hash2 newId2 inp2 =
          .conflict)) := by
  constructor
  · intro u hu
    simp [registerUser, hu]
  · intro hnone
    refine ⟨by simp [registerUser, hnone], ?_, ?_, ?_⟩
    · intro h
      simp [storedRole, h]
    · intro r hr htr
      simp [storedRole, hr, htr]
    · intro hash2 newId2 inp2 hmail
      have hex : (findUserByEmail
          (users ++ [⟨newId, inp.name, inp.email, hash inp.password,
            storedRole inp.role⟩]) inp2.email).isSome := by
        rw [findUserByEmail, List.find?_isSome]
        refine ⟨⟨newId, inp.name, inp.email, hash inp.password,
          storedRole inp.role⟩, ?_, ?_⟩
        · simp
        · simp [hmail]
      rcases hfind : findUserByEmail
          (users ++ [⟨newId, inp.name, inp.email, hash inp.password,
            storedRole inp.role⟩]) inp2.email with _ | u'
      · rw [hfind] at hex
        cases hex
      · simp [registerUser, hfind]

/-- Witness for C5 (amended): a fresh registration persists the
uppercased role and answers the sanitized projection; re-registering
the same email then conflicts. -/
theorem registerUser_spec_witness :
    registerUser [] (fun p => p) "id1" ⟨"n", "a@b", "pw", some "teacher"⟩ =
      .created ⟨"id1", "n", "a@b", "TEACHER"⟩
        [⟨"id1", "n", "a@b", "pw", "TEACHER"⟩] ∧
    registerUser [⟨"id1", "n", "a@b", "pw", "TEACHER"⟩] (fun p => p) "id2"
        ⟨"m", "a@b", "pw2", none⟩ = .conflict := by
  constructor
  · have h := ((registerUser_spec [] (fun p => p) "id1"
      ⟨"n", "a@b", "pw", some "teacher"⟩).2 rfl).1
    rw [(by decide : storedRole (some "teacher") = "TEACHER")] at h
    exact h
  · exact (registerUser_spec [⟨"id1", "n", "a@b", "pw", "TEACHER"⟩]
      (fun p => p) "id2" ⟨"m", "a@b", "pw2", none⟩).1
      ⟨"id1", "n", "a@b", "pw", "TEACHER"⟩ (by decide)

/-- C6: a successful login answers the sanitized projection plus a
token whose payload embeds exactly the user's identifier, name, email
and role, with no expiry claim (`exp = none`); under the store's role
enum the embedded role, once uppercased, equals the stored role. -/
theorem loginUser_token (users : List User)
    (checkPw : String → String → Bool) (email password : String) (u : User)
    (hfind : findUserByEmail users email = some u)
    (hpw : checkPw password u.password = true)
    (henum : u.role ∈ roleEnum) :
    loginUser users checkPw email password =
      .ok ⟨u.id, u.name, u.email, u.role⟩
        ⟨⟨u.id, u.name, u.email, u.role⟩, none⟩ ∧
    jsToUpperCase u.role = u.role := by
  constructor
  · simp [loginUser, hfind, hpw, jwtSign]
  · simp only [roleEnum, List.mem_cons, List.mem_singleton,
      List.not_mem_nil] at henum
    rcases henum with h | h | h | h
    · rw [h]; decide
    · rw [h]; decide
    · rw [h]; decide
    · cases h

/-- Witness for C6: login against a concrete one-user store. -/
theorem loginUser_token_witness :
    loginUser [⟨"u1", "n", "a@b", "pw", "TEACHER"⟩] (fun p h => p == h)
        "a@b" "pw" =
      .ok ⟨"u1", "n", "a@b", "TEACHER"⟩
        ⟨⟨"u1", "n", "a@b", "TEACHER"⟩, none⟩ ∧
    jsToUpperCase "TEACHER" = "TEACHER" :=
  loginUser_token [⟨"u1", "n", "a@b", "pw", "TEACHER"⟩] (fun p h => p == h)
    "a@b" "pw" ⟨"u1", "n", "a@b", "pw", "TEACHER"⟩
    (by decide) (by decide) (by decide)

/-- C7 counterexample: `createJournal` does not tolerate a missing tag
list either — with `taggedStudents` absent it maps over `undefined`
and lands in its catch (500), just like `updateJournal` — refuting
the claim's clause that create, unlike update, tolerates omission. -/
theorem createJournal_missing_tags_cex :
    createJournal (fun _ => none) "j1" "t1" "title" "content"
      none none .absent 0 = .serverError ∧
    updateJournal [] "j1" "title" "content" none none none =
      .serverErrorUndefinedTags := ⟨rfl, rfl⟩

/-- C7 (amended): `updateJournal` replaces (does not merge) the
tagged-student set with the supplied list, and fails when the list is
omitted — it maps over an undefined value; `createJournal` likewise
fails when the tag list is absent. -/
theorem updateJournal_tags (db : List Journal) (id title content : String)
    (media : Option (List String)) (mediaType : Option String) :
    updateJournal db id title content media mediaType none =
      .serverErrorUndefinedTags ∧
    (∀ tags j0, findJournal db id = some j0 →
      updateJournal db id title content media mediaType (some tags) =
        .ok { j0 with
              title := title,
              content := content,
              media := media.getD [],
              mediaType := match mediaType with
                           | none => j0.mediaType
                           | some mt => some (jsToUpperCase mt),
              taggedStudents := tags }) ∧
    (∀ (jsonParse : String → Option (List String)) (newId teacherId : String)
        (now : Int),
      createJournal jsonParse newId teacherId title content media mediaType
        .absent now = .serverError) := by
  refine ⟨rfl, ?_, fun _ _ _ _ => rfl⟩
  intro tags j0 hfind
  simp [updateJournal, hfind]

/-- Witness for C7 (amended): updating a concrete journal with a new
tag list overwrites the old tag set entirely; an omitted `mediaType`
retains the stored `IMAGE`, a supplied one is stored uppercased. -/
theorem updateJournal_tags_witness :
    updateJournal [⟨"j1", "t", "c", ["m"], some "IMAGE", "T1", ["s1"],
        none, 0⟩] "j1" "t2" "c2" none none (some ["s2", "s3"]) =
      .ok ⟨"j1", "t2", "c2", [], some "IMAGE", "T1", ["s2", "s3"],
        none, 0⟩ ∧
    updateJournal [⟨"j1", "t", "c", ["m"], some "IMAGE", "T1", ["s1"],
        none, 0⟩] "j1" "t2" "c2" none (some "video") (some ["s2"]) =
      .ok ⟨"j1", "t2", "c2", [], some "VIDEO", "T1", ["s2"], none, 0⟩ := by
  constructor
  · exact (updateJournal_tags [⟨"j1", "t", "c", ["m"], some "IMAGE", "T1",
      ["s1"], none, 0⟩] "j1" "t2" "c2" none none).2.1 ["s2", "s3"]
      ⟨"j1", "t", "c", ["m"], some "IMAGE", "T1", ["s1"], none, 0⟩
      (by decide)
  · have h := (updateJournal_tags [⟨"j1", "t", "c", ["m"], some "IMAGE",
      "T1", ["s1"], none, 0⟩] "j1" "t2" "c2" none (some "video")).2.1
      ["s2"] ⟨"j1", "t", "c", ["m"], some "IMAGE", "T1", ["s1"], none, 0⟩
      (by decide)
    exact h.trans (by decide)

/-- C9: at an id with no journal, `updateJournal` and `deleteJournal`
answer 500 — the store's record-not-found rejection lands in the
generic catch — not the 404 the claim, the route's own swagger
annotations and `getJournalById` (which does answer 404) promise. -/
theorem updateDelete_missing_answers_500 :
    (updateJournal [] "nope" "t" "c" none none (some [])).status = 500 ∧
    (deleteJournal [] "nope").status = 500 ∧
    (getJournalById [] "nope").status = 404 ∧
    (500 : Nat) ≠ 404 := ⟨rfl, rfl, rfl, by decide⟩

/-- C2 counterexample: with `publish_at` supplied as the empty string
the publish call succeeds — the falsy guard skips validation and the
current instant is stored — although the empty string does not equal
the re-serialization of its own date parse; so "supplied implies
round-trip or 400" is false as stated. -/
theorem publishJournal_empty_string_cex :
    publishJournal [⟨"j1", "t", "c", [], none, "T1", [], none, 0⟩] "j1"
        (some "") 77 =
      .ok ⟨"j1", "t", "c", [], none, "T1", [], some 77, 0⟩ ∧
    isValidISODate "" = false := ⟨by decide, by decide⟩

/-- C2 (amended): for a supplied non-empty `publish_at` string the
call succeeds only when the string equals the re-serialization of its
own date parse, and otherwise answers the 400 format error; on
success the stored value serializes back to the identical string;
with `publish_at` omitted the current instant is stored. -/
theorem publishJournal_iso (db : List Journal) (id s : String) (now : Int)
    (j0 : Journal) (hfind : findJournal db id = some j0) (hne : s ≠ "") :
    (isValidISODate s = false →
      publishJournal db id (some s) now = .badRequest) ∧
    (∀ t, jsParseDate s = some t → isValidISODate s = true →
      publishJournal db id (some s) now =
        .ok { j0 with publish_at := some t } ∧
      toISOString t = s) ∧
    publishJournal db id none now =
      .ok { j0 with publish_at := some now } := by
  have htr : jsTruthy s = true := by simp [jsTruthy, hne]
  refine ⟨?_, ?_, ?_⟩
  · intro hv
    simp [publishJournal, htr, hv]
  · intro t ht hv
    constructor
    · simp [publishJournal, htr, hv, hfind, ht]
    · have h := hv
      unfold isValidISODate at h
      rw [ht] at h
      exact (eq_of_beq h).symm
  · simp [publishJournal, hfind, jsTruthy]

/-- Witness for C2 (amended): publishing a concrete journal with the
canonical string `2024-01-01T00:00:00.000Z` stores the parsed instant,
which serializes back to the identical string; `next tuesday` is
answered 400. -/
theorem publishJournal_iso_witness :
    publishJournal [⟨"j1", "t", "c", [], none, "T1", [], none, 0⟩] "j1"
        (some "2024-01-01T00:00:00.000Z") 5 =
      .ok ⟨"j1", "t", "c", [], none, "T1", [], some 1704067200000, 0⟩ ∧
    toISOString 1704067200000 = "2024-01-01T00:00:00.000Z" ∧
    publishJournal [⟨"j1", "t", "c", [], none, "T1", [], none, 0⟩] "j1"
        (some "next tuesday") 5 = .badRequest := by
  have h := publishJournal_iso
    [⟨"j1", "t", "c", [], none, "T1", [], none, 0⟩] "j1"
    "2024-01-01T00:00:00.000Z" 5
    ⟨"j1", "t", "c", [], none, "T1", [], none, 0⟩ (by decide) (by decide)
  have h2 := h.2.1 1704067200000 (by decide) (by decide)
  have h3 := publishJournal_iso
    [⟨"j1", "t", "c", [], none, "T1", [], none, 0⟩] "j1"
    "next tuesday" 5
    ⟨"j1", "t", "c", [], none, "T1", [], none, 0⟩ (by decide) (by decide)
  exact ⟨h2.1, h2.2, h3.1 (by decide)⟩

/-- C10: a supplied falsy `publish_at` — the empty string, the only
falsy string — skips the ISO validation entirely and stores the
current instant, exactly as when the field is omitted; the 400 branch
is taken precisely for truthy strings failing the round-trip check. -/
theorem publishJournal_falsy (db : List Journal) (id : String) (now : Int)
    (j0 : Journal) (hfind : findJournal db id = some j0) :
    publishJournal db id (some "") now =
      .ok { j0 with publish_at := some now } ∧
    publishJournal db id (some "") now = publishJournal db id none now ∧
    (∀ s, publishJournal db id (some s) now = .badRequest ↔
      jsTruthy s = true ∧ isValidISODate s = false) := by
  refine ⟨by simp [publishJournal, hfind, jsTruthy], rfl, ?_⟩
  intro s
  cases hts : jsTruthy s with
  | false =>
    simp [publishJournal, hts, hfind]
  | true =>
    cases hvs : isValidISODate s with
    | false => simp [publishJournal, hts, hvs]
    | true => simp [publishJournal, hts, hvs, hfind]

/-- Witness for C10: on a concrete store the empty string publishes at
the current instant (overwriting the previous publish time), while a
truthy non-ISO string is answered 400. -/
theorem publishJournal_falsy_witness :
    publishJournal [⟨"j1", "t", "c", [], none, "T1", [], some 3, 0⟩] "j1"
        (some "") 42 =
      .ok ⟨"j1", "t", "c", [], none, "T1", [], some 42, 0⟩ ∧
    publishJournal [⟨"j1", "t", "c", [], none, "T1", [], some 3, 0⟩] "j1"
        (some "next tuesday") 42 = .badRequest := by
  have h := publishJournal_falsy
    [⟨"j1", "t", "c", [], none, "T1", [], some 3, 0⟩] "j1" 42
    ⟨"j1", "t", "c", [], none, "T1", [], some 3, 0⟩ (by decide)
  exact ⟨h.1, (h.2.2 "next tuesday").mpr ⟨by decide, by decide⟩⟩

end JournalBackend
